import Mathlib

/-!
Verification development for the sophon-search inverted-index search engine
(`backend/models.py`, `backend/indexer.py`, `backend/searcher.py`,
`backend/config.py`).

Modelling conventions:
* Python `dict`s (insertion ordered) are association lists `List (K × V)`;
  `dict` writes update the first matching key in place or append a fresh key.
* Python `set`s of document ids are `Finset String`.
* Python floats are modelled as exact rationals `ℚ` (every float is a
  rational).  `math.log` is kept as an unspecified parameter `lg : ℚ → ℚ`
  (the float approximation of the natural logarithm); statements about the
  exact logarithm use `Real.log` over the same rational argument.
* Wall-clock values (`datetime` fields, `search_time_ms`, `time_taken_ms`
  contents) carry no information for any verified property; timestamp fields
  are omitted from the records and timing fields are left at `0`.
* `str.lower`, `str.strip`, `str.isalnum` are modelled character-wise on the
  ASCII range (plus the Devanagari block where the tokenizer names it).
* Exceptions caught by the pervasive `try/except` blocks are modelled by the
  explicit error branches (`Option`, `Bool` results, partial parses).
-/

namespace Sophon

/-! ### Configuration constants (`config.py`) -/

/-- `IndexerConfig.MIN_WORD_LENGTH`. -/
def MIN_WORD_LENGTH : ℕ := 2

/-- `IndexerConfig.MAX_WORD_LENGTH`. -/
def MAX_WORD_LENGTH : ℕ := 30

/-- `IndexerConfig.STOP_WORDS` (a Python set; duplicates in the literal are
harmless because only membership is consulted). -/
def STOP_WORDS : List String :=
  ["hai", "hain", "tha", "the", "ho", "hu", "hoga", "hogi",
   "is", "are", "was", "were", "be", "been", "being",
   "the", "a", "an", "and", "or", "but", "in", "on", "at",
   "to", "for", "of", "with", "by", "from", "as", "it", "this",
   "that", "these", "those", "i", "you", "he", "she", "we", "they"]

/-- `SearcherConfig.MIN_RELEVANCE_SCORE = 0.01`. -/
def MIN_RELEVANCE_SCORE : ℚ := 1 / 100

/-- `SearcherConfig.BM25_K1 = 1.5`. -/
def BM25_K1 : ℚ := 3 / 2

/-- `SearcherConfig.BM25_B = 0.75`. -/
def BM25_B : ℚ := 3 / 4

/-! ### Character-level string helpers

`String.toLower`/`String.trim` from the Lean library are built on string
positions and do not reduce well; the same operations are defined here
directly on the character list, mirroring Python `str.lower` / `str.strip`
(ASCII case folding). -/

/-- Python `str.lower`, character-wise (ASCII case folding). -/
def pyLower (s : String) : String := String.mk (s.data.map Char.toLower)

/-- Python `str.strip`: drop whitespace from both ends. -/
def pyStrip (s : String) : String :=
  String.mk (((s.data.dropWhile Char.isWhitespace).reverse.dropWhile
    Char.isWhitespace).reverse)

/-! ### Tokenizer (`TextPreprocessor`, indexer.py)

`token_pattern = r'\b[a-zA-Z0-9ऀ-ॿ]+\b'` applied with `findall`:
maximal runs of the character class whose neighbouring characters are not
word characters.  The regex word class `\w` is modelled as the token class
plus the underscore (the full Unicode `\w` is wider, but no claim depends on
characters outside this range). -/

/-- Membership in the regex class `[a-zA-Z0-9ऀ-ॿ]`. -/
def isTokenChar (c : Char) : Bool :=
  (97 ≤ c.toNat && c.toNat ≤ 122) || (65 ≤ c.toNat && c.toNat ≤ 90) ||
  (48 ≤ c.toNat && c.toNat ≤ 57) || (2304 ≤ c.toNat && c.toNat ≤ 2431)

/-- Approximation of the regex word class `\w` (see module comment). -/
def isWordChar (c : Char) : Bool := isTokenChar c || c == '_'

/-- A `\b` word boundary holds against a missing neighbour or a non-word
neighbour. -/
def boundaryOk : Option Char → Bool
  | none => true
  | some c => !(isWordChar c)

/-- Walk the maximal same-class runs of the text, keeping the token-class
runs that have a word boundary on both sides.  `prev` is the character
immediately before the current run. -/
def selectRuns : Option Char → List (List Char) → List (List Char)
  | _, [] => []
  | prev, g :: gs =>
    let rest := selectRuns g.getLast? gs
    if g.head?.elim false isTokenChar then
      if boundaryOk prev && boundaryOk (gs.head?.bind List.head?) then g :: rest
      else rest
    else rest

/-- `re.findall(token_pattern, text)` on the character list. -/
def findall (l : List Char) : List (List Char) :=
  selectRuns none (List.splitBy (fun a b => isTokenChar a == isTokenChar b) l)

/-- `TextPreprocessor.tokenize`: case folding (CASE_SENSITIVE is False),
regex extraction, length filtering. -/
def tokenize (text : String) : List String :=
  let toks := (findall (pyLower text).data).map String.mk
  toks.filter (fun t => decide (MIN_WORD_LENGTH ≤ t.length ∧ t.length ≤ MAX_WORD_LENGTH))

/-- `TextPreprocessor.remove_stopwords`. -/
def remove_stopwords (tokens : List String) : List String :=
  tokens.filter (fun t => !(STOP_WORDS.contains t))

/-- `TextPreprocessor.preprocess` with the default `remove_stops=True`. -/
def preprocess (text : String) : List String :=
  remove_stopwords (tokenize text)

/-! ### Data model (`models.py`) -/

/-- One posting: `{'frequency': int, 'positions': List[int]}`. -/
structure Posting where
  frequency : ℕ
  positions : List ℕ
deriving DecidableEq, Repr

/-- `IndexEntry` (pydantic model).  `idf_score` is the cached float. -/
structure IndexEntry where
  word : String
  postings : List (String × Posting)
  doc_frequency : ℕ
  idf_score : ℚ
deriving DecidableEq, Repr

/-- A fresh `IndexEntry(word=term)` with pydantic defaults. -/
def IndexEntry.init (w : String) : IndexEntry :=
  { word := w, postings := [], doc_frequency := 0, idf_score := 0 }

/-- In-place update of `postings[doc_id]`: `frequency += freq` and
`positions.append(position)` on the first (only) matching key. -/
def updatePosting : List (String × Posting) → String → ℕ → ℕ → List (String × Posting)
  | [], _, _, _ => []
  | (k, p) :: rest, d, pos, freq =>
    if k = d then
      (k, { frequency := p.frequency + freq, positions := p.positions ++ [pos] }) :: rest
    else (k, p) :: updatePosting rest d pos freq

/-- `IndexEntry.add_posting`: create the `doc_id` slot if absent, bump its
frequency, append the position, and recompute `doc_frequency` as
`len(self.postings)`. -/
def IndexEntry.add_posting (e : IndexEntry) (docId : String) (position : ℕ)
    (freq : ℕ) : IndexEntry :=
  let base := if (List.lookup docId e.postings).isSome then e.postings
              else e.postings ++ [(docId, { frequency := 0, positions := [] })]
  let updated := updatePosting base docId position freq
  { e with postings := updated, doc_frequency := updated.length }

/-- `Document` (pydantic model); `doc_type`, author/hash and the timestamp
fields are omitted (see module comment). -/
structure Document where
  doc_id : String
  file_path : String
  content : String
  tokens : List String
  file_size : ℕ
  title : Option String
  word_count : ℕ
  unique_words : ℕ
deriving DecidableEq, Repr

/-- `Document.update_stats`. -/
def Document.update_stats (d : Document) : Document :=
  { d with word_count := d.tokens.length, unique_words := d.tokens.dedup.length }

/-- `IndexMetadata`; the two timestamp fields are omitted. -/
structure IndexMetadata where
  version : String
  total_documents : ℕ
  total_terms : ℕ
  total_tokens : ℕ
  avg_doc_length : ℚ
  document_ids : List String
deriving DecidableEq, Repr

/-- `IndexMetadata()` pydantic defaults. -/
def IndexMetadata.init : IndexMetadata :=
  { version := "1.0.0", total_documents := 0, total_terms := 0,
    total_tokens := 0, avg_doc_length := 0, document_ids := [] }

/-- `IndexMetadata.add_document`. -/
def IndexMetadata.add_document (md : IndexMetadata) (doc : Document) : IndexMetadata :=
  let docs := md.total_documents + 1
  let toks := md.total_tokens + doc.word_count
  { md with
    total_documents := docs,
    total_tokens := toks,
    document_ids := md.document_ids ++ [doc.doc_id],
    avg_doc_length := (toks : ℚ) / (docs : ℚ) }

/-- The `indexing_stats` dictionary of `InvertedIndex`. -/
structure IndexingStats where
  terms_indexed : ℕ
  postings_created : ℕ
  time_taken_ms : ℚ
deriving DecidableEq, Repr

/-- Initial `indexing_stats`. -/
def IndexingStats.init : IndexingStats :=
  { terms_indexed := 0, postings_created := 0, time_taken_ms := 0 }

/-! ### The inverted index (`InvertedIndex`, indexer.py) -/

/-- `InvertedIndex` state: term → entry map, metadata, document store,
statistics. -/
structure InvertedIndex where
  index : List (String × IndexEntry)
  metadata : IndexMetadata
  documents : List (String × Document)
  indexing_stats : IndexingStats
deriving DecidableEq, Repr

/-- `InvertedIndex()` fresh state. -/
def emptyIndex : InvertedIndex :=
  { index := [], metadata := IndexMetadata.init, documents := [],
    indexing_stats := IndexingStats.init }

/-- The per-document `term_positions` map of `add_document`: terms in first
occurrence order, each with its ascending position list. -/
def insertPos : List (String × List ℕ) → String → ℕ → List (String × List ℕ)
  | [], t, p => [(t, [p])]
  | (k, ps) :: rest, t, p =>
    if k = t then (k, ps ++ [p]) :: rest else (k, ps) :: insertPos rest t p

/-- Build `term_positions` from the token sequence. -/
def termPositions (tokens : List String) : List (String × List ℕ) :=
  tokens.enum.foldl (fun acc ip => insertPos acc ip.2 ip.1) []

/-- `self.index[term] = entry`: replace the first matching key or append. -/
def setEntry : List (String × IndexEntry) → String → IndexEntry → List (String × IndexEntry)
  | [], t, e => [(t, e)]
  | (k, v) :: rest, t, e =>
    if k = t then (k, e) :: rest else (k, v) :: setEntry rest t e

/-- `InvertedIndex.add_document`: no-op when `doc_id` is already stored;
otherwise tokenize, write one posting per token occurrence, store the
document and update metadata and statistics.  (`idf_score`s are *not*
refreshed here.) -/
def InvertedIndex.add_document (s : InvertedIndex) (doc : Document) : InvertedIndex :=
  if (List.lookup doc.doc_id s.documents).isSome then s
  else
    let tokens := preprocess doc.content
    let doc' := Document.update_stats { doc with tokens := tokens }
    let tp := termPositions tokens
    let index' := tp.foldl (fun idx entry =>
      let e0 := (List.lookup entry.1 idx).getD (IndexEntry.init entry.1)
      let e1 := entry.2.foldl (fun e pos => e.add_posting doc'.doc_id pos 1) e0
      setEntry idx entry.1 e1) s.index
    { index := index',
      metadata := s.metadata.add_document doc',
      documents := s.documents ++ [(doc'.doc_id, doc')],
      indexing_stats := { s.indexing_stats with
        postings_created := s.indexing_stats.postings_created + tp.length,
        terms_indexed := s.indexing_stats.terms_indexed + tp.length } }

/-- A sequence of `add_document` calls starting from the fresh index. -/
def buildIndex (docs : List Document) : InvertedIndex :=
  docs.foldl InvertedIndex.add_document emptyIndex

/-- `InvertedIndex.get_term_postings` (CASE_SENSITIVE is False, so the term
is lower-cased first). -/
def InvertedIndex.get_term_postings (s : InvertedIndex) (term : String) : Option IndexEntry :=
  List.lookup (pyLower term) s.index

/-- `InvertedIndex.get_document`. -/
def InvertedIndex.get_document (s : InvertedIndex) (docId : String) : Option Document :=
  List.lookup docId s.documents

/-- `InvertedIndex.get_term_frequency`. -/
def InvertedIndex.get_term_frequency (s : InvertedIndex) (term docId : String) : ℕ :=
  match s.get_term_postings term with
  | none => 0
  | some e =>
    match List.lookup docId e.postings with
    | none => 0
    | some p => p.frequency

/-- The argument of the smoothed-IDF logarithm: `(N + 1) / (df + 0.5)`. -/
def idfArg (N df : ℕ) : ℚ := ((N : ℚ) + 1) / ((df : ℚ) + 1 / 2)

/-- `InvertedIndex._calculate_idf`: `0.0` for an unknown term, otherwise
`log((N + 1) / (df + 0.5))` (the float log is the parameter `lg`). -/
def InvertedIndex.calculate_idf (lg : ℚ → ℚ) (s : InvertedIndex) (term : String) : ℚ :=
  match List.lookup term s.index with
  | none => 0
  | some e => lg (idfArg s.metadata.total_documents e.doc_frequency)

/-- `InvertedIndex._update_idf_scores`: recompute every entry's cached
`idf_score`.  (`doc_frequency` values are untouched, so reading them from
the pre- or mid-update state is equivalent.) -/
def InvertedIndex.update_idf_scores (lg : ℚ → ℚ) (s : InvertedIndex) : InvertedIndex :=
  { s with index := s.index.map (fun p =>
      (p.1, { p.2 with idf_score := s.calculate_idf lg p.1 })) }

/-! ### Persistence (`save` / `load`, indexer.py)

The JSON file is modelled structurally.  `Option (Option SavedFile)` is the
result of the file system and the JSON parser: `none` = file missing,
`some none` = `json.load` fails.  Inside a parsed file each record carries
`Option` to mark records whose pydantic deserialization raises.  `save`
emits its own state, which always re-parses (`json.dump` of a pydantic
`model_dump` round-trips). -/

/-- On-disk index file: `{'metadata': ..., 'index': ..., 'documents': ...,
'stats': ...}`. -/
structure SavedFile where
  metadata : Option IndexMetadata
  index : List (String × Option IndexEntry)
  documents : List (String × Option Document)
  stats : IndexingStats
deriving DecidableEq, Repr

/-- The `for`-loop of `load` over a record map: records are inserted in
order until the first record whose deserialization raises; the flag reports
whether the whole loop completed. -/
def parseRecords {α : Type} : List (String × Option α) → List (String × α) × Bool
  | [] => ([], true)
  | (_, none) :: _ => ([], false)
  | (k, some v) :: rest =>
    let r := parseRecords rest
    ((k, v) :: r.1, r.2)

/-- `InvertedIndex.save`: refresh the metadata counters from the live maps,
then serialize metadata, every entry, every document and the statistics.
Returns the written file and the (mutated) state.  The I/O failure branch
(`return False`) is outside the model. -/
def InvertedIndex.save (s : InvertedIndex) : SavedFile × InvertedIndex :=
  let md := { s.metadata with
    total_documents := s.documents.length,
    total_terms := s.index.length,
    document_ids := s.documents.map Prod.fst }
  ({ metadata := some md,
     index := s.index.map (fun p => (p.1, some p.2)),
     documents := s.documents.map (fun p => (p.1, some p.2)),
     stats := s.indexing_stats },
   { s with metadata := md })

/-- `InvertedIndex.load`.  Mirrors the source's in-place mutation order:
metadata is assigned first, then the index map is rebuilt record by record,
then the document map, then the statistics; an exception at any point
returns `False` and leaves whatever was already assigned. -/
def InvertedIndex.load (s : InvertedIndex) (file : Option (Option SavedFile)) :
    Bool × InvertedIndex :=
  match file with
  | none => (false, s)
  | some none => (false, s)
  | some (some f) =>
    match f.metadata with
    | none => (false, s)
    | some md =>
      let s1 := { s with metadata := md }
      let pi := parseRecords f.index
      let s2 := { s1 with index := pi.1 }
      if pi.2 = false then (false, s2)
      else
        let pd := parseRecords f.documents
        let s3 := { s2 with documents := pd.1 }
        if pd.2 = false then (false, s3)
        else (true, { s3 with indexing_stats := f.stats })

/-- The ways a load can fail: missing file, unparsable JSON, or a record
(metadata, index entry, document) whose deserialization raises. -/
def fileMalformed (file : Option (Option SavedFile)) : Prop :=
  file = none ∨ file = some none ∨
    ∃ f, file = some (some f) ∧
      (f.metadata = none ∨ (parseRecords f.index).2 = false ∨
        (parseRecords f.documents).2 = false)

/-! ### BM25 scorer (`BM25Scorer`, searcher.py) -/

/-- `BM25Scorer.calculate_idf`: `log(1 + (N - n + 0.5) / (n + 0.5))`,
`0.0` when the term is unknown. -/
def bm25_calculate_idf (lg : ℚ → ℚ) (s : InvertedIndex) (term : String) : ℚ :=
  match s.get_term_postings term with
  | none => 0
  | some e =>
    lg (1 + ((s.metadata.total_documents : ℚ) - (e.doc_frequency : ℚ) + 1 / 2) /
      ((e.doc_frequency : ℚ) + 1 / 2))

/-- `dl = doc.word_count or 1`. -/
def bm25DL (doc : Document) : ℚ :=
  if doc.word_count = 0 then 1 else (doc.word_count : ℚ)

/-- `avgdl = index.metadata.avg_doc_length or 1.0`. -/
def bm25AvgDL (s : InvertedIndex) : ℚ :=
  if s.metadata.avg_doc_length = 0 then 1 else s.metadata.avg_doc_length

/-- The denominator of the BM25 term-frequency component:
`f + k1 * (1 - b + b * (dl / avgdl))`. -/
def bm25Denom (k1 b : ℚ) (s : InvertedIndex) (p : Posting) (doc : Document) : ℚ :=
  (p.frequency : ℚ) + k1 * (1 - b + b * (bm25DL doc / bm25AvgDL s))

/-- `BM25Scorer.score_term`: `0.0` for a term missing from the index, a
document missing from the term's postings, or a document missing from the
store.  A zero denominator is the degenerate case in which the float
computation raises or produces a non-finite value, both of which the source
coerces to `0.0` (`except` / `isnan`-`isinf` guard); in exact rational
arithmetic the same branch yields `0`. -/
def bm25_score_term (lg : ℚ → ℚ) (k1 b : ℚ) (s : InvertedIndex)
    (term docId : String) : ℚ :=
  match s.get_term_postings term with
  | none => 0
  | some e =>
    match List.lookup docId e.postings with
    | none => 0
    | some p =>
      match s.get_document docId with
      | none => 0
      | some doc =>
        if bm25Denom k1 b s p doc = 0 then 0
        else bm25_calculate_idf lg s term *
          (((p.frequency : ℚ) * (k1 + 1)) / bm25Denom k1 b s p doc)

/-! ### TF-IDF scorer (`TFIDFScorer`, searcher.py) -/

/-- The document vector of `TFIDFScorer.score`: over the document's distinct
tokens, `term_frequency * cached idf_score` (direct `index.index.get`, no
case folding on this path). -/
def tfidfDocVector (s : InvertedIndex) (doc : Document) (docId : String) :
    List (String × ℚ) :=
  doc.tokens.dedup.map (fun term =>
    (term, (s.get_term_frequency term docId : ℚ) *
      ((List.lookup term s.index).elim 0 IndexEntry.idf_score)))

/-- `TFIDFScorer.score`: the query vector assigns weight 1 to each distinct
query term, but the accumulation loop runs over the query term *list*, so a
term contributes once per occurrence. -/
def tfidf_score (s : InvertedIndex) (query_terms : List String)
    (docId : String) : ℚ :=
  match s.get_document docId with
  | none => 0
  | some doc =>
    if doc.tokens = [] then 0
    else
      query_terms.foldl (fun acc term =>
        match List.lookup term (tfidfDocVector s doc docId) with
        | some v => acc + 1 * v
        | none => acc) 0

/-! ### Boolean retriever (`BooleanRetriever`, searcher.py) -/

/-- `BooleanRetriever._get_doc_ids`: the key set of the term's postings. -/
def getDocIds (s : InvertedIndex) (term : String) : Finset String :=
  match s.get_term_postings term with
  | none => ∅
  | some e => (e.postings.map Prod.fst).toFinset

/-- The intersection loop of `and_operation`, with its early return on an
empty running intersection. -/
def andLoop (s : InvertedIndex) (acc : Finset String) : List String → Finset String
  | [] => acc
  | t :: rest =>
    let acc' := acc ∩ getDocIds s t
    if acc' = ∅ then ∅ else andLoop s acc' rest

/-- `BooleanRetriever.and_operation`. -/
def and_operation (s : InvertedIndex) (terms : List String) : Finset String :=
  match terms with
  | [] => ∅
  | t :: rest => andLoop s (getDocIds s t) rest

/-- `BooleanRetriever.or_operation`. -/
def or_operation (s : InvertedIndex) (terms : List String) : Finset String :=
  terms.foldl (fun acc t => acc ∪ getDocIds s t) ∅

/-! ### Search pipeline (`SearchEngine`, searcher.py) -/

/-- `SearchEngine._retrieve_candidates`: the hybrid `AND ∪ OR` candidate
set. -/
def retrieve_candidates (s : InvertedIndex) (terms : List String) : Finset String :=
  if terms = [] then ∅ else and_operation s terms ∪ or_operation s terms

/-- `SearchEngine._rank_documents` with the default `'bm25'` algorithm:
score each candidate by the sum of per-term BM25 scores, keep scores at or
above `MIN_RELEVANCE_SCORE`, sort by score descending (stable; a Python
set's iteration order is unspecified, the model fixes the `Finset`'s
underlying order). -/
def rank_documents (lg : ℚ → ℚ) (s : InvertedIndex) (candidates : Finset String)
    (query_terms : List String) : List (String × ℚ) :=
  let scored := (candidates.sort (· ≤ ·)).filterMap (fun d =>
    let sc := (query_terms.map (fun t => bm25_score_term lg BM25_K1 BM25_B s t d)).sum
    if MIN_RELEVANCE_SCORE ≤ sc then some (d, sc) else none)
  scored.mergeSort (fun a b => decide (b.2 ≤ a.2))

/-- Python list slice `l[start:stop]` for non-negative bounds. -/
def pySlice {α : Type} (l : List α) (start stop : ℕ) : List α :=
  (l.take stop).drop start

/-- `total_pages = (total_results + per_page - 1) // per_page`. -/
def total_pages_of (total_results per_page : ℕ) : ℕ :=
  (total_results + per_page - 1) / per_page

/-- The pagination step of `SearchEngine.search` (lines 609–616): the
reported page count and the slice
`ranked[(page-1)*per_page : (page-1)*per_page + per_page]`. -/
def paginateStep {α : Type} (ranked : List α) (page per_page : ℕ) : ℕ × List α :=
  (total_pages_of ranked.length per_page,
   pySlice ranked ((page - 1) * per_page) ((page - 1) * per_page + per_page))

/-- `SearchResult` (pydantic model); snippet text, content and the
timestamp are omitted (no claim references them). -/
structure SearchResult where
  doc_id : String
  title : String
  score : ℚ
  matched_terms : List String
  file_path : String
  file_size : ℕ
  tf_score : ℚ
  idf_score : ℚ
deriving DecidableEq, Repr

/-- `SearchEngine._create_search_result`: `none` for a missing document,
otherwise the materialized result with matched terms and the debug
aggregates. -/
def create_search_result (s : InvertedIndex) (docId : String) (score : ℚ)
    (query_terms : List String) : Option SearchResult :=
  match s.get_document docId with
  | none => none
  | some doc =>
    let lowerToks := (doc.tokens.filter (fun t => t != "")).map pyLower
    some { doc_id := docId,
           title := doc.title.getD docId,
           score := score,
           matched_terms := query_terms.filter (fun t => lowerToks.contains t),
           file_path := doc.file_path,
           file_size := doc.file_size,
           tf_score := (query_terms.map (fun t => (s.get_term_frequency t docId : ℚ))).sum,
           idf_score := (query_terms.map (fun t =>
             (List.lookup t s.index).elim 0 IndexEntry.idf_score)).sum }

/-- The inner loop of `_generate_suggestions` for one query token: walk the
vocabulary, collect terms sharing the token's first three characters
(excluding the token itself), stopping once three suggestions have
accumulated. -/
def collectSugg (token : String) : List String → List String → List String
  | sugg, [] => sugg
  | sugg, t :: rest =>
    if (String.mk (token.data.take 3)).data.isPrefixOf t.data && t != token then
      let next := sugg ++ [t]
      if 3 ≤ next.length then next else collectSugg token next rest
    else collectSugg token sugg rest

/-- `SearchEngine._generate_suggestions`. -/
def generate_suggestions (s : InvertedIndex) (query : String) : List String :=
  let tokens := preprocess query
  (tokens.foldl (fun sugg tok => collectSugg tok sugg (s.index.map Prod.fst)) []).take 3

/-- `SearchQuery` after successful pydantic validation (`page` and
`per_page` are within their declared bounds, so natural numbers). -/
structure SearchQuery where
  query : String
  page : ℕ
  per_page : ℕ
deriving DecidableEq, Repr

/-- Constructing `SearchQuery(query=..., per_page=...)`: pydantic field
constraints (`1 ≤ len(query) ≤ 500`, `1 ≤ per_page ≤ 50`) and the query
validator (the stripped query must contain an alphanumeric character);
`none` models the raised `ValidationError`. -/
def mkSearchQuery (q : String) (per_page : ℤ) : Option SearchQuery :=
  if 1 ≤ q.length ∧ q.length ≤ 500 ∧ (pyStrip q).data.any Char.isAlphanum ∧
      1 ≤ per_page ∧ per_page ≤ 50
  then some { query := pyStrip q, page := 1, per_page := per_page.toNat }
  else none

/-- `SearchResponse`; `search_time_ms` is wall-clock and modelled as `0`. -/
structure SearchResponse where
  results : List SearchResult
  total_results : ℕ
  query : String
  search_time_ms : ℚ
  page : ℕ
  per_page : ℕ
  total_pages : ℕ
  suggestions : Option (List String)
deriving DecidableEq, Repr

/-- `SearchEngine` state: the owned index and the query cache. -/
structure SearchEngineState where
  index : InvertedIndex
  query_cache : List (String × SearchResponse)
deriving DecidableEq, Repr

/-- A fresh `SearchEngine()`. -/
def emptyEngine : SearchEngineState := { index := emptyIndex, query_cache := [] }

/-- The cache key `f"{query}:{page}:{per_page}"`. -/
def cacheKey (q : SearchQuery) : String :=
  q.query ++ ":" ++ toString q.page ++ ":" ++ toString q.per_page

/-- An empty response as built at the three early-return sites of
`search`. -/
def emptyResponse (q : SearchQuery) (sugg : Option (List String)) : SearchResponse :=
  { results := [], total_results := 0, query := q.query, search_time_ms := 0,
    page := q.page, per_page := q.per_page, total_pages := 0, suggestions := sugg }

/-- `SearchEngine.search`: cache lookup, tokenization, hybrid candidate
retrieval, BM25 ranking, pagination, materialization, cache store (with
whole-cache eviction at capacity 100). -/
def search (lg : ℚ → ℚ) (eng : SearchEngineState) (q : SearchQuery) :
    SearchResponse × SearchEngineState :=
  match List.lookup (cacheKey q) eng.query_cache with
  | some resp => (resp, eng)
  | none =>
    let query_terms := preprocess q.query
    if query_terms = [] then
      (emptyResponse q (some ["Kripya koi valid search term enter karein"]), eng)
    else
      let candidates := retrieve_candidates eng.index query_terms
      if candidates = ∅ then
        (emptyResponse q (some (generate_suggestions eng.index q.query)), eng)
      else
        let ranked := rank_documents lg eng.index candidates query_terms
        if ranked = [] then
          (emptyResponse q (some (generate_suggestions eng.index q.query)), eng)
        else
          let pr := paginateStep ranked q.page q.per_page
          let results := pr.2.filterMap (fun p =>
            create_search_result eng.index p.1 p.2 query_terms)
          let resp : SearchResponse :=
            { results := results,
              total_results := ranked.length,
              query := q.query,
              search_time_ms := 0,
              page := q.page,
              per_page := q.per_page,
              total_pages := pr.1,
              suggestions := if results = [] then
                some (generate_suggestions eng.index q.query) else none }
          let cache0 := if 100 ≤ eng.query_cache.length then [] else eng.query_cache
          (resp, { eng with query_cache := cache0 ++ [(cacheKey q, resp)] })

/-- `SearchEngine.quick_search`: build `SearchQuery(query=..., per_page=top_k)`;
a `ValidationError` is caught and `[]` returned. -/
def quick_search (lg : ℚ → ℚ) (eng : SearchEngineState) (query_string : String)
    (top_k : ℤ) : List SearchResult :=
  match mkSearchQuery query_string top_k with
  | none => []
  | some q => (search lg eng q).1.results

/-! ### Concrete sample states used by the witnesses -/

/-- A small ingested document (as handed over by the crawler: tokens and
stats still unset). -/
def sampleDoc : Document :=
  { doc_id := "a", file_path := "/docs/a.txt", content := "bb cc bb",
    tokens := [], file_size := 8, title := none, word_count := 0,
    unique_words := 0 }

/-- An already-indexed document for the literal sample state. -/
def sampleDoc2 : Document :=
  { doc_id := "a", file_path := "/docs/a.txt", content := "bb bb",
    tokens := ["bb", "bb"], file_size := 5, title := some "A",
    word_count := 2, unique_words := 1 }

/-- A literal one-term, one-document index state (with a cached
`idf_score` of 2 on the term). -/
def sampleState2 : InvertedIndex :=
  { index := [("bb",
      { word := "bb",
        postings := [("a", { frequency := 2, positions := [0, 1] })],
        doc_frequency := 1, idf_score := 2 })],
    metadata :=
      { version := "1.0.0", total_documents := 1, total_terms := 1,
        total_tokens := 2, avg_doc_length := 2, document_ids := ["a"] },
    documents := [("a", sampleDoc2)],
    indexing_stats :=
      { terms_indexed := 1, postings_created := 1, time_taken_ms := 0 } }

/-- A parsed index file whose metadata deserializes but whose first index
entry does not. -/
def badFile : SavedFile :=
  { metadata := some
      { version := "1.0.0", total_documents := 7, total_terms := 0,
        total_tokens := 0, avg_doc_length := 0, document_ids := [] },
    index := [("t", none)],
    documents := [],
    stats := IndexingStats.init }

/-! ### Supporting lemmas -/

theorem parseRecords_map_some {α : Type} (l : List (String × α)) :
    parseRecords (l.map (fun p => (p.1, some p.2))) = (l, true) := by
  induction l with
  | nil => rfl
  | cons h t ih =>
    obtain ⟨k, v⟩ := h
    simp [parseRecords, ih]

/-! ### Claim C1 — `load` failure behaviour -/

/-- C1 (counterexample): a file whose metadata deserializes but whose first
index entry does not makes `load` report failure *and* leave a partially
overwritten state — refuting "leaves the entire in-memory state exactly as
it was before the call". -/
theorem c1_load_partial_overwrite :
    (sampleState2.load (some (some badFile))).1 = false ∧
    (sampleState2.load (some (some badFile))).2 ≠ sampleState2 := by decide

/-- C1 (amended): `load` on a missing or malformed file always reports
failure; the in-memory state is untouched when the file is missing, the
JSON does not parse, or the metadata record fails to deserialize, but a
failure while deserializing an index entry (resp. a document record)
leaves the metadata replaced and the index (resp. index and document
store) partially rebuilt. -/
theorem c1_load_failure (s : InvertedIndex) (file : Option (Option SavedFile)) :
    (fileMalformed file → (s.load file).1 = false) ∧
    ((file = none ∨ file = some none ∨
        ∃ f, file = some (some f) ∧ f.metadata = none) → (s.load file).2 = s) ∧
    (∀ f md, file = some (some f) → f.metadata = some md →
      (parseRecords f.index).2 = false →
      (s.load file).2 = { s with
        metadata := md,
        index := (parseRecords f.index).1 }) ∧
    (∀ f md, file = some (some f) → f.metadata = some md →
      (parseRecords f.index).2 = true → (parseRecords f.documents).2 = false →
      (s.load file).2 = { s with
        metadata := md,
        index := (parseRecords f.index).1,
        documents := (parseRecords f.documents).1 }) := by
  refine ⟨?_, ?_, ?_, ?_⟩
  · rintro (rfl | rfl | ⟨f, rfl, hf⟩)
    · rfl
    · rfl
    · rcases hmd : f.metadata with _ | md
      · simp [InvertedIndex.load, hmd]
      · rcases hf with hf | hf | hf
        · rw [hmd] at hf; exact absurd hf (by simp)
        · simp [InvertedIndex.load, hmd, hf]
        · by_cases hi : (parseRecords f.index).2 = false
          · simp [InvertedIndex.load, hmd, hi]
          · rw [Bool.not_eq_false] at hi
            simp [InvertedIndex.load, hmd, hi, hf]
  · rintro (rfl | rfl | ⟨f, rfl, hmd⟩)
    · rfl
    · rfl
    · simp [InvertedIndex.load, hmd]
  · rintro f md rfl hmd hi
    simp [InvertedIndex.load, hmd, hi]
  · rintro f md rfl hmd hi hd
    simp [InvertedIndex.load, hmd, hi, hd]

/-- C1 witness: the amended theorem applied to a missing file. -/
theorem c1_load_failure_witness :
    (sampleState2.load none).1 = false ∧ (sampleState2.load none).2 = sampleState2 :=
  ⟨(c1_load_failure sampleState2 none).1 (Or.inl rfl),
   (c1_load_failure sampleState2 none).2.1 (Or.inl rfl)⟩

/-! ### Claim C4 — duplicate `doc_id` is a no-op -/

/-- C4: adding a document whose `doc_id` is already stored leaves the whole
index state (postings, document store, metadata counters, statistics)
unchanged. -/
theorem c4_duplicate_doc_id_noop (s : InvertedIndex) (doc : Document)
    (h : (List.lookup doc.doc_id s.documents).isSome = true) :
    s.add_document doc = s := by
  simp [InvertedIndex.add_document, h]

/-- C4 witness: re-adding the stored document of the sample state. -/
theorem c4_duplicate_doc_id_noop_witness :
    (List.lookup sampleDoc2.doc_id sampleState2.documents).isSome = true ∧
    sampleState2.add_document sampleDoc2 = sampleState2 :=
  ⟨by decide, c4_duplicate_doc_id_noop sampleState2 sampleDoc2 (by decide)⟩

/-! ### Claim C5 — BM25 `score_term` zero guards -/

/-- C5: BM25 `score_term` returns exactly 0 when the term has no index
entry, when the document is absent from the term's postings, or when the
document is absent from the store; and in the degenerate case in which the
float formula would not be finite (zero denominator — Python's
`ZeroDivisionError`/`isnan`/`isinf` paths), it also returns 0. -/
theorem c5_bm25_zero_guards (lg : ℚ → ℚ) (k1 b : ℚ) (s : InvertedIndex)
    (term docId : String) :
    (s.get_term_postings term = none → bm25_score_term lg k1 b s term docId = 0) ∧
    (∀ e, s.get_term_postings term = some e → List.lookup docId e.postings = none →
      bm25_score_term lg k1 b s term docId = 0) ∧
    (s.get_document docId = none → bm25_score_term lg k1 b s term docId = 0) ∧
    (∀ e p doc, s.get_term_postings term = some e →
      List.lookup docId e.postings = some p → s.get_document docId = some doc →
      bm25Denom k1 b s p doc = 0 → bm25_score_term lg k1 b s term docId = 0) := by
  refine ⟨fun h => by simp [bm25_score_term, h],
    fun e he hp => by simp [bm25_score_term, he, hp], fun hd => ?_,
    fun e p doc he hp hd hden => by simp [bm25_score_term, he, hp, hd, hden]⟩
  rcases he : s.get_term_postings term with _ | e
  · simp [bm25_score_term, he]
  · rcases hp : List.lookup docId e.postings with _ | p
    · simp [bm25_score_term, he, hp]
    · simp [bm25_score_term, he, hp, hd]

/-- C5 witness: a term with no entry in the sample state scores 0. -/
theorem c5_bm25_zero_guards_witness :
    sampleState2.get_term_postings "zz" = none ∧
    bm25_score_term id BM25_K1 BM25_B sampleState2 "zz" "a" = 0 :=
  ⟨by decide,
   (c5_bm25_zero_guards id BM25_K1 BM25_B sampleState2 "zz" "a").1 (by decide)⟩

/-! ### Claim C6 — save/load round trip -/

/-- C6: saving any index state and loading the written file into a fresh
index succeeds and reproduces the identical term map (term set and postings
with frequencies and position lists), the identical document store, and the
metadata (in particular `total_documents` and `total_terms`) exactly as
`save` recomputed it on the saved state. -/
theorem c6_save_load_round_trip (s : InvertedIndex) :
    (emptyIndex.load (some (some (s.save).1))).1 = true ∧
    (emptyIndex.load (some (some (s.save).1))).2.index = s.index ∧
    (emptyIndex.load (some (some (s.save).1))).2.documents = s.documents ∧
    (emptyIndex.load (some (some (s.save).1))).2.metadata = (s.save).2.metadata := by
  simp [InvertedIndex.load, InvertedIndex.save, parseRecords_map_some]

/-! ### Claim C10 — `quick_search` with an out-of-range `top_k` -/

/-- C10: for every query string and every `top_k` outside `1..50`,
constructing the `SearchQuery` fails validation, the failure is swallowed,
and `quick_search` returns the empty result list. -/
theorem c10_quick_search_out_of_range (lg : ℚ → ℚ) (eng : SearchEngineState)
    (q : String) (top_k : ℤ) (h : top_k < 1 ∨ 50 < top_k) :
    quick_search lg eng q top_k = [] := by
  have hn : ¬(1 ≤ q.length ∧ q.length ≤ 500 ∧
      (pyStrip q).data.any Char.isAlphanum ∧ 1 ≤ top_k ∧ top_k ≤ 50) := by
    rintro ⟨-, -, -, h4, h5⟩
    rcases h with h | h <;> omega
  have hmk : mkSearchQuery q top_k = none := by
    unfold mkSearchQuery
    rw [if_neg hn]
  simp [quick_search, hmk]

/-- C10 witness: asking for 51 results silently yields none. -/
theorem c10_quick_search_out_of_range_witness :
    ((51 : ℤ) < 1 ∨ (50 : ℤ) < 51) ∧
    quick_search id emptyEngine "aa" 51 = [] :=
  ⟨Or.inr (by decide),
   c10_quick_search_out_of_range id emptyEngine "aa" 51 (Or.inr (by decide))⟩

/-! ### Claim C2 — TF-IDF query-side repetition -/

theorem tfidf_foldl_eq_sum (dv : List (String × ℚ)) (terms : List String) (acc : ℚ) :
    terms.foldl (fun a term =>
      match List.lookup term dv with
      | some v => a + 1 * v
      | none => a) acc
      = acc + (terms.map (fun t => (List.lookup t dv).getD 0)).sum := by
  induction terms generalizing acc with
  | nil => simp
  | cons t ts ih =>
    rcases h : List.lookup t dv with _ | v
    · simp only [List.foldl_cons, List.map_cons, List.sum_cons, h, Option.getD_none]
      rw [ih, zero_add]
    · simp only [List.foldl_cons, List.map_cons, List.sum_cons, h, Option.getD_some]
      rw [ih, one_mul, add_assoc]

/-- C2 (counterexample): repeating a query term changes the TF-IDF score —
refuting "a query term list with a term repeated twice yields the same
score as the deduplicated term list".  On the sample state the duplicated
query scores 8, the deduplicated one 4. -/
theorem c2_repeated_term_changes_score :
    tfidf_score sampleState2 ["bb", "bb"] "a" ≠ tfidf_score sampleState2 ["bb"] "a" := by
  have hdoc : sampleState2.get_document "a" = some sampleDoc2 := by decide
  have hdv : tfidfDocVector sampleState2 sampleDoc2 "a" = [("bb", 4)] := by
    unfold tfidfDocVector
    rw [show sampleDoc2.tokens.dedup = ["bb"] from by decide]
    rw [List.map_cons, List.map_nil]
    rw [show sampleState2.get_term_frequency "bb" "a" = 2 from by decide]
    rw [show List.lookup "bb" sampleState2.index =
      some { word := "bb",
             postings := [("a", { frequency := 2, positions := [0, 1] })],
             doc_frequency := 1, idf_score := 2 } from by decide]
    norm_num [Option.elim]
  have hlk : List.lookup "bb" ([("bb", (4 : ℚ))]) = some 4 := by decide
  have h1 : tfidf_score sampleState2 ["bb", "bb"] "a" = 8 := by
    unfold tfidf_score
    rw [hdoc]
    dsimp only
    rw [if_neg (by decide : ¬(sampleDoc2.tokens = [])), tfidf_foldl_eq_sum, hdv]
    simp [hlk]
    norm_num
  have h2 : tfidf_score sampleState2 ["bb"] "a" = 4 := by
    unfold tfidf_score
    rw [hdoc]
    dsimp only
    rw [if_neg (by decide : ¬(sampleDoc2.tokens = [])), tfidf_foldl_eq_sum, hdv]
    simp [hlk]
  rw [h1, h2]
  norm_num

/-- C2 (amended): the TF-IDF score is the dot product of the query
*occurrence-count* vector with the document vector
`term_frequency * idf_score` restricted to query terms: each distinct query
term contributes `count in query × tf × idf`, so a repeated query term
counts once per repetition. -/
theorem c2_tfidf_occurrence_dot_product (s : InvertedIndex) (terms : List String)
    (docId : String) (doc : Document) (h1 : s.get_document docId = some doc)
    (h2 : doc.tokens ≠ []) :
    tfidf_score s terms docId =
      ∑ t in terms.toFinset, (terms.count t : ℚ) *
        ((List.lookup t (tfidfDocVector s doc docId)).getD 0) := by
  unfold tfidf_score
  rw [h1]
  dsimp only
  rw [if_neg h2, tfidf_foldl_eq_sum, zero_add, Finset.sum_list_map_count]
  simp [nsmul_eq_mul]

/-- C2 witness: the amended dot product evaluated on the sample state with
the duplicated query `["bb", "bb"]`. -/
theorem c2_tfidf_occurrence_dot_product_witness :
    sampleState2.get_document "a" = some sampleDoc2 ∧ sampleDoc2.tokens ≠ [] ∧
    tfidf_score sampleState2 ["bb", "bb"] "a" =
      ∑ t in (["bb", "bb"] : List String).toFinset,
        ((["bb", "bb"] : List String).count t : ℚ) *
          ((List.lookup t (tfidfDocVector sampleState2 sampleDoc2 "a")).getD 0) :=
  ⟨by decide, by decide,
   c2_tfidf_occurrence_dot_product sampleState2 ["bb", "bb"] "a" sampleDoc2
     (by decide) (by decide)⟩

/-! ### Claim C7 — AND ⊆ OR and the hybrid candidate set -/

theorem andLoop_subset (s : InvertedIndex) (l : List String) :
    ∀ acc : Finset String, andLoop s acc l ⊆ acc := by
  induction l with
  | nil => intro acc; simp [andLoop]
  | cons t rest ih =>
    intro acc
    by_cases h : acc ∩ getDocIds s t = ∅
    · simp [andLoop, h]
    · calc andLoop s acc (t :: rest)
          = andLoop s (acc ∩ getDocIds s t) rest := by simp [andLoop, h]
      _ ⊆ acc ∩ getDocIds s t := ih _
      _ ⊆ acc := Finset.inter_subset_left

theorem subset_foldl_union (s : InvertedIndex) (l : List String) :
    ∀ acc : Finset String, acc ⊆ l.foldl (fun a t => a ∪ getDocIds s t) acc := by
  induction l with
  | nil => intro acc; simp
  | cons t rest ih =>
    intro acc
    rw [List.foldl_cons]
    exact Finset.subset_union_left.trans (ih _)

theorem getDocIds_subset_foldl (s : InvertedIndex) (l : List String) (t : String) :
    ∀ acc : Finset String, t ∈ l →
      getDocIds s t ⊆ l.foldl (fun a u => a ∪ getDocIds s u) acc := by
  induction l with
  | nil => intro acc h; cases h
  | cons a rest ih =>
    intro acc h
    rw [List.foldl_cons]
    rcases List.mem_cons.mp h with rfl | h'
    · exact Finset.subset_union_right.trans (subset_foldl_union s rest _)
    · exact ih _ h'

/-- C7: for a non-empty term list, the AND result set is contained in the
OR result set, and the hybrid candidate set `AND ∪ OR` computed by
`_retrieve_candidates` is therefore exactly the OR set. -/
theorem c7_and_subset_or (s : InvertedIndex) (terms : List String) (h : terms ≠ []) :
    and_operation s terms ⊆ or_operation s terms ∧
    retrieve_candidates s terms = or_operation s terms := by
  obtain ⟨t, rest, rfl⟩ := List.exists_cons_of_ne_nil h
  have h1 : and_operation s (t :: rest) ⊆ getDocIds s t :=
    andLoop_subset s rest (getDocIds s t)
  have hsub : and_operation s (t :: rest) ⊆ or_operation s (t :: rest) :=
    h1.trans (getDocIds_subset_foldl s (t :: rest) t ∅ (List.mem_cons_self t rest))
  refine ⟨hsub, ?_⟩
  unfold retrieve_candidates
  rw [if_neg h]
  exact Finset.union_eq_right.mpr hsub

/-- C7 witness: the hybrid candidate set of the sample state for the query
term list `["bb"]`. -/
theorem c7_and_subset_or_witness :
    (["bb"] : List String) ≠ [] ∧
    and_operation sampleState2 ["bb"] ⊆ or_operation sampleState2 ["bb"] ∧
    retrieve_candidates sampleState2 ["bb"] = or_operation sampleState2 ["bb"] :=
  ⟨by decide, (c7_and_subset_or sampleState2 ["bb"] (by decide)).1,
   (c7_and_subset_or sampleState2 ["bb"] (by decide)).2⟩

/-! ### Claim C8 — pagination -/

theorem le_total_pages_mul (n p : ℕ) (hp : 0 < p) : n ≤ total_pages_of n p * p := by
  unfold total_pages_of
  have h := (Nat.div_lt_iff_lt_mul hp).mp (Nat.lt_succ_self ((n + p - 1) / p))
  rw [Nat.succ_eq_add_one, Nat.add_mul, one_mul] at h
  omega

theorem total_pages_eq_ceil (n p : ℕ) (hp : 0 < p) :
    total_pages_of n p = ⌈(n : ℚ) / (p : ℚ)⌉₊ := by
  unfold total_pages_of
  have hpq : (0 : ℚ) < (p : ℚ) := by exact_mod_cast hp
  apply le_antisymm
  · have hc : (n : ℚ) ≤ (⌈(n : ℚ) / (p : ℚ)⌉₊ : ℚ) * (p : ℚ) := by
      calc (n : ℚ) = (n : ℚ) / p * p := by field_simp
        _ ≤ (⌈(n : ℚ) / (p : ℚ)⌉₊ : ℚ) * p :=
            mul_le_mul_of_nonneg_right (Nat.le_ceil _) (le_of_lt hpq)
    have h2 : n ≤ ⌈(n : ℚ) / (p : ℚ)⌉₊ * p := by exact_mod_cast hc
    have h3 : n + p - 1 < (⌈(n : ℚ) / (p : ℚ)⌉₊ + 1) * p := by
      rw [Nat.add_mul, one_mul]
      omega
    have h5 := (Nat.div_lt_iff_lt_mul hp).mpr h3
    omega
  · rw [Nat.ceil_le, div_le_iff₀ hpq]
    have h6 := le_total_pages_mul n p hp
    unfold total_pages_of at h6
    exact_mod_cast h6

/-- C8: for every ranked list and `page ≥ 1`, `per_page ≥ 1`, the reported
page count is `⌈total / per_page⌉`, the returned page is the slice
`ranked[(page-1)*per_page : page*per_page]` (as drop-then-take), and a page
past the last one yields the empty list. -/
theorem c8_pagination {α : Type} (ranked : List α) (page per_page : ℕ)
    (h1 : 1 ≤ page) (h2 : 1 ≤ per_page) :
    (paginateStep ranked page per_page).1 = ⌈(ranked.length : ℚ) / (per_page : ℚ)⌉₊ ∧
    (paginateStep ranked page per_page).2
      = (ranked.drop ((page - 1) * per_page)).take per_page ∧
    ((paginateStep ranked page per_page).1 < page →
      (paginateStep ranked page per_page).2 = []) := by
  refine ⟨total_pages_eq_ceil ranked.length per_page h2, ?_, ?_⟩
  · show pySlice ranked ((page - 1) * per_page) ((page - 1) * per_page + per_page) = _
    unfold pySlice
    rw [List.drop_take]
    congr 1
    omega
  · intro hlt
    show pySlice ranked ((page - 1) * per_page) ((page - 1) * per_page + per_page) = []
    unfold pySlice
    apply List.drop_eq_nil_of_le
    have hn : ranked.length ≤ total_pages_of ranked.length per_page * per_page :=
      le_total_pages_mul ranked.length per_page h2
    have hpage : total_pages_of ranked.length per_page ≤ page - 1 := by
      have := hlt
      unfold paginateStep at this
      omega
    have hmul : total_pages_of ranked.length per_page * per_page
        ≤ (page - 1) * per_page := Nat.mul_le_mul_right _ hpage
    calc (List.take ((page - 1) * per_page + per_page) ranked).length
        ≤ ranked.length := by
          rw [List.length_take]
          exact min_le_right _ _
      _ ≤ (page - 1) * per_page := le_trans hn hmul

/-- C8 witness: 25 results at 10 per page give 3 pages and an empty page
4 (applied via the pagination theorem at `page = 4`). -/
theorem c8_pagination_witness :
    (1 : ℕ) ≤ 4 ∧ (1 : ℕ) ≤ 10 ∧
    ((paginateStep (List.replicate 25 ("d", (0 : ℚ))) 4 10).1 <  4 →
      (paginateStep (List.replicate 25 ("d", (0 : ℚ))) 4 10).2 = []) :=
  ⟨by decide, by decide,
   (c8_pagination (List.replicate 25 ("d", (0 : ℚ))) 4 10 (by decide) (by decide)).2.2⟩

/-! ### Claim C9 — the IDF refresh formula and its monotonicity -/

theorem lookup_map_idf (lg : ℚ → ℚ) (s : InvertedIndex) (t : String) :
    ∀ l : List (String × IndexEntry),
      List.lookup t (l.map (fun p =>
          (p.1, { p.2 with idf_score := s.calculate_idf lg p.1 })))
        = (List.lookup t l).map (fun v =>
            { v with idf_score := s.calculate_idf lg t }) := by
  intro l
  induction l with
  | nil => rfl
  | cons h rest ih =>
    obtain ⟨k, v⟩ := h
    simp only [List.map_cons, List.lookup]
    cases hk : t == k
    · simp [hk, ih]
    · have hkt : t = k := eq_of_beq hk
      subst hkt
      simp [hk]

theorem lookup_update_idf (lg : ℚ → ℚ) (s : InvertedIndex) (t : String) :
    List.lookup t (s.update_idf_scores lg).index
      = (List.lookup t s.index).map (fun v =>
          { v with idf_score := s.calculate_idf lg t }) := by
  unfold InvertedIndex.update_idf_scores
  exact lookup_map_idf lg s t s.index

/-- C9: after the IDF refresh, every indexed term's cached `idf_score` is
`log((N + 1) / (df + 0.5))` with `N` the total document count and `df` the
term's document frequency; and the exact logarithm of that argument is
strictly decreasing in `df` for fixed `N`: `1 ≤ df1 < df2` implies
`idf(df2) < idf(df1)`. -/
theorem c9_idf_refresh (lg : ℚ → ℚ) (s : InvertedIndex) (t : String)
    (e : IndexEntry) (N df1 df2 : ℕ)
    (h : List.lookup t (s.update_idf_scores lg).index = some e)
    (h1 : 1 ≤ df1) (h2 : df1 < df2) :
    e.idf_score = lg (idfArg s.metadata.total_documents e.doc_frequency) ∧
    Real.log ((idfArg N df2 : ℚ) : ℝ) < Real.log ((idfArg N df1 : ℚ) : ℝ) := by
  constructor
  · rw [lookup_update_idf] at h
    rcases hv : List.lookup t s.index with _ | v
    · rw [hv] at h; cases h
    · rw [hv] at h
      simp only [Option.map_some'] at h
      injection h with h'
      subst h'
      simp [InvertedIndex.calculate_idf, hv]
  · have hcast : ∀ d : ℕ, ((idfArg N d : ℚ) : ℝ) = ((N : ℝ) + 1) / ((d : ℝ) + 1 / 2) := by
      intro d
      unfold idfArg
      push_cast
      ring
    rw [hcast, hcast]
    apply Real.log_lt_log
    · positivity
    · apply div_lt_div_of_pos_left
      · positivity
      · positivity
      · have hd : (df1 : ℝ) < (df2 : ℝ) := by exact_mod_cast h2
        linarith

/-- C9 witness: the refresh of the sample state (with the identity standing
for the float log) and the concrete comparison `idf(2) < idf(1)` at
`N = 5`. -/
theorem c9_idf_refresh_witness :
    ((List.lookup "bb" (sampleState2.update_idf_scores id).index).getD
        (IndexEntry.init "z")).idf_score
      = id (idfArg sampleState2.metadata.total_documents
          ((List.lookup "bb" (sampleState2.update_idf_scores id).index).getD
            (IndexEntry.init "z")).doc_frequency) ∧
    Real.log ((idfArg 5 2 : ℚ) : ℝ) < Real.log ((idfArg 5 1 : ℚ) : ℝ) := by
  have hs : (List.lookup "bb" (sampleState2.update_idf_scores id).index).isSome = true := by
    rfl
  have hl : List.lookup "bb" (sampleState2.update_idf_scores id).index
      = some ((List.lookup "bb" (sampleState2.update_idf_scores id).index).getD
          (IndexEntry.init "z")) := by
    rcases hv : List.lookup "bb" (sampleState2.update_idf_scores id).index with _ | v
    · rw [hv] at hs; cases hs
    · rfl
  exact c9_idf_refresh id sampleState2 "bb"
    ((List.lookup "bb" (sampleState2.update_idf_scores id).index).getD
      (IndexEntry.init "z")) 5 1 2 hl (by decide) (by decide)

/-! ### Claim C3 — `doc_frequency` equals the number of postings keys -/

theorem lookup_some_mem {β : Type} (t : String) (l : List (String × β)) (v : β)
    (h : List.lookup t l = some v) : (t, v) ∈ l := by
  induction l with
  | nil => cases h
  | cons p rest ih =>
    obtain ⟨k, b⟩ := p
    simp only [List.lookup] at h
    cases hk : t == k
    · rw [hk] at h
      exact List.mem_cons_of_mem _ (ih h)
    · rw [hk] at h
      injection h with h'
      have ht : t = k := eq_of_beq hk
      subst ht
      subst h'
      exact List.mem_cons_self _ _

theorem lookup_none_not_mem {β : Type} (t : String) (l : List (String × β))
    (h : List.lookup t l = none) : t ∉ l.map Prod.fst := by
  induction l with
  | nil => simp
  | cons p rest ih =>
    obtain ⟨k, b⟩ := p
    simp only [List.lookup] at h
    cases hk : t == k
    · rw [hk] at h
      simp only [List.map_cons, List.mem_cons]
      rintro (rfl | hmem)
      · simp at hk
      · exact ih h hmem
    · rw [hk] at h
      cases h

theorem updatePosting_keys (l : List (String × Posting)) (d : String) (pos f : ℕ) :
    (updatePosting l d pos f).map Prod.fst = l.map Prod.fst := by
  induction l with
  | nil => rfl
  | cons p rest ih =>
    obtain ⟨k, q⟩ := p
    by_cases hk : k = d
    · simp [updatePosting, hk]
    · simp [updatePosting, hk, ih]

theorem add_posting_doc_frequency (e : IndexEntry) (d : String) (pos f : ℕ) :
    (e.add_posting d pos f).doc_frequency = (e.add_posting d pos f).postings.length :=
  rfl

theorem add_posting_nodup (e : IndexEntry) (d : String) (pos f : ℕ)
    (h : (e.postings.map Prod.fst).Nodup) :
    ((e.add_posting d pos f).postings.map Prod.fst).Nodup := by
  simp only [IndexEntry.add_posting]
  rw [updatePosting_keys]
  by_cases hs : (List.lookup d e.postings).isSome = true
  · rw [if_pos hs]
    exact h
  · rw [if_neg hs]
    have hn : List.lookup d e.postings = none := by
      cases hx : List.lookup d e.postings
      · rfl
      · rw [hx] at hs
        simp at hs
    rw [List.map_append]
    simp only [List.map_cons, List.map_nil]
    rw [List.nodup_append]
    refine ⟨h, List.nodup_singleton d, ?_⟩
    intro a ha hb
    rw [List.mem_singleton] at hb
    rw [hb] at ha
    exact lookup_none_not_mem d e.postings hn ha

theorem foldl_add_posting_inv (d : String) (positions : List ℕ) :
    ∀ e : IndexEntry, e.doc_frequency = e.postings.length →
      (e.postings.map Prod.fst).Nodup →
      (positions.foldl (fun e pos => e.add_posting d pos 1) e).doc_frequency
          = (positions.foldl (fun e pos => e.add_posting d pos 1) e).postings.length ∧
        ((positions.foldl (fun e pos => e.add_posting d pos 1) e).postings.map
          Prod.fst).Nodup := by
  induction positions with
  | nil => intro e h1 h2; exact ⟨h1, h2⟩
  | cons p ps ih =>
    intro e h1 h2
    rw [List.foldl_cons]
    exact ih _ (add_posting_doc_frequency e d p 1) (add_posting_nodup e d p 1 h2)

theorem setEntry_forall (Q : IndexEntry → Prop) (t : String) (e : IndexEntry) :
    ∀ l : List (String × IndexEntry), (∀ p ∈ l, Q p.2) → Q e →
      ∀ p ∈ setEntry l t e, Q p.2 := by
  intro l
  induction l with
  | nil =>
    intro _ he p hp
    simp only [setEntry, List.mem_singleton] at hp
    subst hp
    exact he
  | cons q rest ih =>
    obtain ⟨k, v⟩ := q
    intro hl he p hp
    by_cases hk : k = t
    · rw [setEntry, if_pos hk] at hp
      rcases List.mem_cons.mp hp with rfl | hmem
      · exact he
      · exact hl p (List.mem_cons_of_mem _ hmem)
    · rw [setEntry, if_neg hk] at hp
      rcases List.mem_cons.mp hp with rfl | hmem
      · exact hl (k, v) (List.mem_cons_self _ _)
      · exact ih (fun r hr => hl r (List.mem_cons_of_mem _ hr)) he p hmem

theorem index_foldl_inv (docId : String) (tp : List (String × List ℕ)) :
    ∀ idx : List (String × IndexEntry),
      (∀ p ∈ idx, p.2.doc_frequency = p.2.postings.length ∧
        (p.2.postings.map Prod.fst).Nodup) →
      ∀ p ∈ tp.foldl (fun idx entry =>
          let e0 := (List.lookup entry.1 idx).getD (IndexEntry.init entry.1)
          let e1 := entry.2.foldl (fun e pos => e.add_posting docId pos 1) e0
          setEntry idx entry.1 e1) idx,
        p.2.doc_frequency = p.2.postings.length ∧
          (p.2.postings.map Prod.fst).Nodup := by
  induction tp with
  | nil => intro idx h; exact h
  | cons a rest ih =>
    intro idx h
    rw [List.foldl_cons]
    apply ih
    have he0 : ((List.lookup a.1 idx).getD (IndexEntry.init a.1)).doc_frequency
        = ((List.lookup a.1 idx).getD (IndexEntry.init a.1)).postings.length ∧
        (((List.lookup a.1 idx).getD (IndexEntry.init a.1)).postings.map
          Prod.fst).Nodup := by
      rcases hv : List.lookup a.1 idx with _ | v
      · exact ⟨rfl, List.nodup_nil⟩
      · exact h (a.1, v) (lookup_some_mem a.1 idx v hv)
    exact setEntry_forall
      (fun v => v.doc_frequency = v.postings.length ∧ (v.postings.map Prod.fst).Nodup)
      a.1 _ idx h (foldl_add_posting_inv docId a.2 _ he0.1 he0.2)

theorem add_document_inv (s : InvertedIndex) (doc : Document)
    (h : ∀ p ∈ s.index, p.2.doc_frequency = p.2.postings.length ∧
      (p.2.postings.map Prod.fst).Nodup) :
    ∀ p ∈ (s.add_document doc).index, p.2.doc_frequency = p.2.postings.length ∧
      (p.2.postings.map Prod.fst).Nodup := by
  unfold InvertedIndex.add_document
  by_cases hd : (List.lookup doc.doc_id s.documents).isSome = true
  · rw [if_pos hd]
    exact h
  · rw [if_neg hd]
    exact index_foldl_inv _ _ s.index h

theorem buildIndex_from_inv (docs : List Document) :
    ∀ s : InvertedIndex, (∀ p ∈ s.index, p.2.doc_frequency = p.2.postings.length ∧
        (p.2.postings.map Prod.fst).Nodup) →
      ∀ p ∈ (docs.foldl InvertedIndex.add_document s).index,
        p.2.doc_frequency = p.2.postings.length ∧
          (p.2.postings.map Prod.fst).Nodup := by
  induction docs with
  | nil => intro s h; exact h
  | cons d rest ih =>
    intro s h
    rw [List.foldl_cons]
    exact ih _ (add_document_inv s d h)

/-- C3: after any sequence of `add_document` calls starting from the empty
index, every indexed term's stored `doc_frequency` equals the number of
distinct document ids among its postings keys. -/
theorem c3_doc_frequency_eq_postings (docs : List Document) (t : String)
    (e : IndexEntry) (h : List.lookup t (buildIndex docs).index = some e) :
    e.doc_frequency = ((e.postings.map Prod.fst).dedup).length := by
  have hmem : (t, e) ∈ (buildIndex docs).index :=
    lookup_some_mem t _ e h
  have hinv := buildIndex_from_inv docs emptyIndex
    (by intro p hp; simp [emptyIndex] at hp) (t, e) hmem
  rw [List.dedup_eq_self.mpr hinv.2, List.length_map]
  exact hinv.1

/-- C3 witness: the index built from the sample document `"bb cc bb"`,
inspected at the term `"bb"`. -/
theorem c3_doc_frequency_eq_postings_witness :
    ((List.lookup "bb" (buildIndex [sampleDoc]).index).getD
        (IndexEntry.init "z")).doc_frequency
      = ((((List.lookup "bb" (buildIndex [sampleDoc]).index).getD
          (IndexEntry.init "z")).postings.map Prod.fst).dedup).length := by
  have hs : (List.lookup "bb" (buildIndex [sampleDoc]).index).isSome = true := by
    decide
  have hl : List.lookup "bb" (buildIndex [sampleDoc]).index
      = some ((List.lookup "bb" (buildIndex [sampleDoc]).index).getD
          (IndexEntry.init "z")) := by
    rcases hv : List.lookup "bb" (buildIndex [sampleDoc]).index with _ | v
    · rw [hv] at hs; cases hs
    · rfl
  exact c3_doc_frequency_eq_postings [sampleDoc] "bb" _ hl

end Sophon
